import Mathlib

/-!
Shallow embedding of the plagiarism-checker repository (two near-duplicate
entry points: `main.py` and `3223004469/main.py`).

Modelling conventions:
* Python strings are Lean `String`s; a possibly-`None` Python string is
  `Option String` (with `none` for Python `None`); Python truthiness of a
  string is `≠ ""`.
* Python floats are modelled as real numbers (`ℝ`); exact rational
  intermediate values use `ℚ`.
* The external word segmenter (`jieba.lcut`) is an arbitrary parameter
  `seg : String → List String`: the repository treats it as an opaque
  deterministic tokenizer.
* Fallible code returns `Except PyError`, where `PyError` records whether the
  exception is a `ValueError` and its message.
-/

/-- A Python exception, as far as the code under analysis can observe it:
whether it is a `ValueError` (the only class the code catches) and its
message (`str(e)`). -/
structure PyError where
  isValueError : Bool
  msg : String
deriving DecidableEq, Repr

/-- Does the character list start with the given pattern?  (Helper for
substring search, used to model the Python test `"..." in str(e)`.) -/
def startsWithChars : List Char → List Char → Bool
  | _, [] => true
  | [], _ :: _ => false
  | c :: cs, d :: ds => (c = d) && startsWithChars cs ds

/-- Does the character list contain the pattern as a contiguous sublist? -/
def containsChars : List Char → List Char → Bool
  | [], pat => pat.isEmpty
  | c :: cs, pat => startsWithChars (c :: cs) pat || containsChars cs pat

/-- The Python substring test `pat in s`. -/
def containsSubstr (s pat : String) : Bool :=
  containsChars s.toList pat.toList

/-- Maximal runs of characters satisfying `p`; accumulator holds the current
run reversed.  (Helper for modelling `str.split()` and the vectorizer token
pattern.) -/
def runsAux (p : Char → Bool) : List Char → List Char → List (List Char)
  | [], acc => if acc.isEmpty then [] else [acc.reverse]
  | c :: cs, acc =>
    if p c then runsAux p cs (c :: acc)
    else (if acc.isEmpty then [] else [acc.reverse]) ++ runsAux p cs []

/-- The maximal runs of characters of `s` satisfying `p`, in order. -/
def charRuns (p : Char → Bool) (s : List Char) : List (List Char) :=
  runsAux p s []

/-- The Python method `str.split()` with no separator: maximal runs of
non-whitespace characters.  (`Char.isWhitespace` approximates the Python
whitespace set.) -/
def pySplit (s : String) : List String :=
  (charRuns (fun c => !c.isWhitespace) s.toList).map String.mk

/-- Model of `preprocess_text` and of the body of `cached_preprocess_text`: `if not text:
return ""` then `" ".join(jieba.lcut(text))`.  The argument is `Option
String` because `main` in `main.py` can pass `None` (a failed file read). -/
def preprocess_text (seg : String → List String) : Option String → String
  | none => ""
  | some t => if t = "" then "" else String.intercalate " " (seg t)

/-! ### difflib.SequenceMatcher model

`SequenceMatcher(None, a, b).ratio()` with no junk and short strings
(autojunk only affects sequences of length ≥ 200, irrelevant here):
`find_longest_match` returns the longest common contiguous block, ties broken
by the earliest start in `a`, then the earliest start in `b`;
`get_matching_blocks` recurses on the pieces to the left and right of that
block; `ratio` is `2 * M / (len a + len b)` where `M` is the total size of
the matching blocks, and `1.0` when both strings are empty. -/

/-- Length of the common run at the heads of the two character lists. -/
def runLen : List Char → List Char → Nat
  | a :: as, b :: bs => if a = b then runLen as bs + 1 else 0
  | _, _ => 0

/-- The longest-match triple `(i, j, size)` of the difflib function
`find_longest_match` over the whole strings: the maximal common-run length,
attained at the lexicographically least `(i, j)`. -/
def bestTriple (a b : List Char) : Nat × Nat × Nat :=
  (List.range a.length).foldl (fun best i =>
    (List.range b.length).foldl (fun best j =>
      if runLen (a.drop i) (b.drop j) > best.2.2 then
        (i, j, runLen (a.drop i) (b.drop j))
      else best) best) (0, 0, 0)

theorem runLen_le_left : ∀ a b : List Char, runLen a b ≤ a.length
  | [], _ => by simp [runLen]
  | _ :: _, [] => by simp [runLen]
  | a :: as, b :: bs => by
    simp only [runLen, List.length_cons]
    split
    · exact Nat.succ_le_succ (runLen_le_left as bs)
    · exact Nat.zero_le _

theorem runLen_le_right : ∀ a b : List Char, runLen a b ≤ b.length
  | [], _ => by simp [runLen]
  | _ :: _, [] => by simp [runLen]
  | a :: as, b :: bs => by
    simp only [runLen, List.length_cons]
    split
    · exact Nat.succ_le_succ (runLen_le_right as bs)
    · exact Nat.zero_le _

/-- Invariant-preservation helper for `List.foldl`. -/
theorem foldl_inv {α β : Type} (P : β → Prop) (f : β → α → β) :
    ∀ (l : List α) (init : β), P init →
      (∀ s x, x ∈ l → P s → P (f s x)) → P (l.foldl f init)
  | [], _, h, _ => h
  | x :: xs, init, h, hs =>
    foldl_inv P f xs (f init x) (hs init x (List.mem_cons_self x xs) h)
      (fun s y hy => hs s y (List.mem_cons_of_mem x hy))

theorem bestTriple_bounds (a b : List Char) (h : (bestTriple a b).2.2 ≠ 0) :
    (bestTriple a b).1 + (bestTriple a b).2.2 ≤ a.length ∧
      (bestTriple a b).2.1 + (bestTriple a b).2.2 ≤ b.length := by
  have key : (fun t : Nat × Nat × Nat =>
      t.2.2 ≠ 0 → t.1 + t.2.2 ≤ a.length ∧ t.2.1 + t.2.2 ≤ b.length) (bestTriple a b) := by
    unfold bestTriple
    apply foldl_inv (fun t : Nat × Nat × Nat =>
      t.2.2 ≠ 0 → t.1 + t.2.2 ≤ a.length ∧ t.2.1 + t.2.2 ≤ b.length)
    · intro hne; exact absurd rfl hne
    · intro s i hi hs
      apply foldl_inv (fun t : Nat × Nat × Nat =>
        t.2.2 ≠ 0 → t.1 + t.2.2 ≤ a.length ∧ t.2.1 + t.2.2 ≤ b.length)
      · exact hs
      · intro s' j hj hs'
        by_cases hgt : runLen (a.drop i) (b.drop j) > s'.2.2
        · simp only [if_pos hgt]
          intro _
          have hia : i < a.length := List.mem_range.mp hi
          have hjb : j < b.length := List.mem_range.mp hj
          have h1 : runLen (a.drop i) (b.drop j) ≤ a.length - i :=
            le_trans (runLen_le_left _ _) (le_of_eq (List.length_drop i a))
          have h2 : runLen (a.drop i) (b.drop j) ≤ b.length - j :=
            le_trans (runLen_le_right _ _) (le_of_eq (List.length_drop j b))
          constructor <;> omega
        · simp only [if_neg hgt]
          exact hs'
  exact key h

/-- Total size of the matching blocks of the difflib function
`get_matching_blocks`: the longest match splits the strings, and the left
and right pieces are matched recursively. -/
def matchesTotal (a b : List Char) : Nat :=
  if h : (bestTriple a b).2.2 = 0 then 0
  else
    matchesTotal (a.take (bestTriple a b).1) (b.take (bestTriple a b).2.1) +
      (bestTriple a b).2.2 +
      matchesTotal (a.drop ((bestTriple a b).1 + (bestTriple a b).2.2))
        (b.drop ((bestTriple a b).2.1 + (bestTriple a b).2.2))
termination_by a.length + b.length
decreasing_by
  · have hb := bestTriple_bounds a b h
    have h1 : (a.take (bestTriple a b).1).length = min (bestTriple a b).1 a.length :=
      List.length_take _ _
    have h2 : (b.take (bestTriple a b).2.1).length = min (bestTriple a b).2.1 b.length :=
      List.length_take _ _
    omega
  · have hb := bestTriple_bounds a b h
    have h1 : (a.drop ((bestTriple a b).1 + (bestTriple a b).2.2)).length
        = a.length - ((bestTriple a b).1 + (bestTriple a b).2.2) := List.length_drop _ _
    have h2 : (b.drop ((bestTriple a b).2.1 + (bestTriple a b).2.2)).length
        = b.length - ((bestTriple a b).2.1 + (bestTriple a b).2.2) := List.length_drop _ _
    omega

theorem matchesTotal_le (a b : List Char) :
    matchesTotal a b ≤ a.length ∧ matchesTotal a b ≤ b.length := by
  induction a, b using matchesTotal.induct with
  | case1 a b ht =>
    rw [matchesTotal, dif_pos ht]
    simp
  | case2 a b ht ih1 ih2 =>
    rw [matchesTotal, dif_neg ht]
    have hb := bestTriple_bounds a b ht
    have l1 : (a.take (bestTriple a b).1).length = min (bestTriple a b).1 a.length :=
      List.length_take _ _
    have l2 : (b.take (bestTriple a b).2.1).length = min (bestTriple a b).2.1 b.length :=
      List.length_take _ _
    have l3 : (a.drop ((bestTriple a b).1 + (bestTriple a b).2.2)).length
        = a.length - ((bestTriple a b).1 + (bestTriple a b).2.2) := List.length_drop _ _
    have l4 : (b.drop ((bestTriple a b).2.1 + (bestTriple a b).2.2)).length
        = b.length - ((bestTriple a b).2.1 + (bestTriple a b).2.2) := List.length_drop _ _
    obtain ⟨ih1a, ih1b⟩ := ih1
    obtain ⟨ih2a, ih2b⟩ := ih2
    constructor <;> omega

/-- Model of `SequenceMatcher(None, a, b).ratio()`: `2 M / (la + lb)` as an exact
rational, and `1` when both strings are empty (the difflib helper
`_calculate_ratio`). -/
def sequenceMatcherRatio (a b : String) : ℚ :=
  if a.toList.length + b.toList.length = 0 then 1
  else 2 * (matchesTotal a.toList b.toList : ℚ) / (a.toList.length + b.toList.length)

theorem sequenceMatcherRatio_nonneg (a b : String) : 0 ≤ sequenceMatcherRatio a b := by
  unfold sequenceMatcherRatio
  split
  · norm_num
  · apply div_nonneg
    · positivity
    · positivity

theorem sequenceMatcherRatio_le_one (a b : String) : sequenceMatcherRatio a b ≤ 1 := by
  unfold sequenceMatcherRatio
  split
  · norm_num
  · rename_i h
    have hpos : (0 : ℚ) < a.toList.length + b.toList.length := by
      have : 0 < a.toList.length + b.toList.length := Nat.pos_of_ne_zero h
      exact_mod_cast this
    rw [div_le_one hpos]
    have hm := matchesTotal_le a.toList b.toList
    have h1 : (matchesTotal a.toList b.toList : ℚ) ≤ a.toList.length := by
      exact_mod_cast hm.1
    have h2 : (matchesTotal a.toList b.toList : ℚ) ≤ b.toList.length := by
      exact_mod_cast hm.2
    linarith

/-! ### sklearn model: TfidfVectorizer (default settings) and cosine_similarity

`TfidfVectorizer()` with default parameters: lowercases each document,
extracts tokens with the pattern `(?u)\b\w\w+\b` (maximal runs of word
characters, keeping those of length at least 2), builds the vocabulary from
the current input documents, raises `ValueError("empty vocabulary; ...")`
when that vocabulary is empty, and otherwise produces one tf-idf row per
document with smoothed idf `ln((1 + n) / (1 + df)) + 1` and l2
normalization.  Because `cosine_similarity` itself renormalizes each row
(mapping zero rows to similarity 0, exactly like real-division-by-zero in
`ℝ`), the composition of l2 normalization and cosine equals the cosine of
the raw tf-idf rows, which is how it is modelled here. -/

/-- A word character for the token pattern `\w`: ASCII alphanumerics,
underscore, and (as an approximation of Unicode word characters, in
particular CJK) every code point at or above 128. -/
def isWordChar (c : Char) : Bool := c.isAlphanum || c = '_' || 128 ≤ c.toNat

/-- The default `TfidfVectorizer` analyzer: lowercase, then maximal runs of
word characters of length at least 2. -/
def sklearnTokenize (s : String) : List String :=
  ((charRuns isWordChar (s.toList.map Char.toLower)).filter
    (fun r => 2 ≤ r.length)).map String.mk

/-- The vocabulary the vectorizer fits on the given raw documents. -/
def sklearnVocab (docs : List String) : List String :=
  ((docs.map sklearnTokenize).flatten).dedup

/-- Document frequency of token `t` over the tokenized documents. -/
def docFreq (t : String) (toks : List (List String)) : Nat :=
  (toks.filter (fun d => decide (t ∈ d))).length

theorem docFreq_le (t : String) (toks : List (List String)) :
    docFreq t toks ≤ toks.length :=
  List.length_filter_le _ _

/-- The tf-idf weight of token `t` in tokenized document `doc`, the
documents of the current fit being `toks`: raw term count times smoothed
idf. -/
noncomputable def tfidfWeight (toks : List (List String)) (doc : List String)
    (t : String) : ℝ :=
  (doc.count t : ℝ) *
    (Real.log ((1 + toks.length : ℝ) / (1 + docFreq t toks)) + 1)

/-- The message of the sklearn empty-vocabulary error. -/
def emptyVocabMsg : String :=
  "empty vocabulary; perhaps the documents only contain stop words"

/-- The exception `fit_transform` raises when the fitted vocabulary is
empty: a `ValueError` whose message mentions the empty vocabulary. -/
def emptyVocabError : PyError := ⟨true, emptyVocabMsg⟩

/-- Model of `TfidfVectorizer().fit_transform(docs)`: the matrix of tf-idf rows (one
per document, indexed by the fitted vocabulary), or the empty-vocabulary
`ValueError`. -/
noncomputable def fit_transform (docs : List String) :
    Except PyError (List (List ℝ)) :=
  if sklearnVocab docs = [] then .error emptyVocabError
  else .ok ((docs.map sklearnTokenize).map
    (fun d => (sklearnVocab docs).map (tfidfWeight (docs.map sklearnTokenize) d)))

theorem tfidfWeight_nonneg (toks : List (List String)) (doc : List String)
    (t : String) (h : docFreq t toks ≤ toks.length) : 0 ≤ tfidfWeight toks doc t := by
  unfold tfidfWeight
  apply mul_nonneg
  · positivity
  · have hlog : 0 ≤ Real.log ((1 + toks.length : ℝ) / (1 + docFreq t toks)) := by
      apply Real.log_nonneg
      rw [le_div_iff₀ (by positivity)]
      have : (docFreq t toks : ℝ) ≤ toks.length := by exact_mod_cast h
      linarith
    linarith

/-- Dot product of two rows (trailing entries of the longer row ignored,
as when multiplying equal-length sparse rows). -/
noncomputable def dotR : List ℝ → List ℝ → ℝ
  | x :: xs, y :: ys => x * y + dotR xs ys
  | _, _ => 0

/-- Model of `sklearn.metrics.pairwise.cosine_similarity` of two rows, composed
with the l2 normalization of the vectorizer: dot product over the product of
norms, with the `0/0 = 0` convention for zero rows. -/
noncomputable def cosine_similarity (v w : List ℝ) : ℝ :=
  dotR v w / Real.sqrt (dotR v v * dotR w w)

theorem dotR_self_nonneg : ∀ v : List ℝ, 0 ≤ dotR v v
  | [] => le_refl 0
  | x :: xs => by
    have h := dotR_self_nonneg xs
    simp only [dotR]
    nlinarith [mul_self_nonneg x]

theorem dotR_nonneg : ∀ v w : List ℝ, (∀ x ∈ v, 0 ≤ x) → (∀ y ∈ w, 0 ≤ y) →
    0 ≤ dotR v w
  | [], w, _, _ => by cases w <;> simp [dotR]
  | _ :: _, [], _, _ => by simp [dotR]
  | x :: xs, y :: ys, hv, hw => by
    simp only [dotR]
    have hx : 0 ≤ x := hv x (List.mem_cons_self x xs)
    have hy : 0 ≤ y := hw y (List.mem_cons_self y ys)
    have ih := dotR_nonneg xs ys (fun a ha => hv a (List.mem_cons_of_mem x ha))
      (fun a ha => hw a (List.mem_cons_of_mem y ha))
    nlinarith

/-- Cauchy-Schwarz for the row dot product. -/
theorem dotR_sq_le : ∀ v w : List ℝ, (dotR v w) ^ 2 ≤ dotR v v * dotR w w
  | [], w => by cases w <;> simp [dotR]
  | _ :: _, [] => by
    simp only [dotR]
    norm_num
  | x :: xs, y :: ys => by
    simp only [dotR]
    have ih := dotR_sq_le xs ys
    have hA := dotR_self_nonneg xs
    have hB := dotR_self_nonneg ys
    rcases eq_or_lt_of_le hA with h0 | hpos
    · have hS2 : dotR xs ys ^ 2 = 0 := le_antisymm (by nlinarith) (sq_nonneg _)
      have hS : dotR xs ys = 0 := by
        have := sq_eq_zero_iff.mp hS2
        exact this
      rw [← h0, hS]
      nlinarith [mul_nonneg (mul_self_nonneg x) hB]
    · nlinarith [sq_nonneg (x * dotR xs ys - dotR xs xs * y),
        mul_nonneg (add_nonneg (sq_nonneg x) hA) (sub_nonneg.mpr ih)]

theorem cosine_similarity_nonneg (v w : List ℝ) (hv : ∀ x ∈ v, 0 ≤ x)
    (hw : ∀ y ∈ w, 0 ≤ y) : 0 ≤ cosine_similarity v w :=
  div_nonneg (dotR_nonneg v w hv hw) (Real.sqrt_nonneg _)

theorem cosine_similarity_le_one (v w : List ℝ) : cosine_similarity v w ≤ 1 := by
  unfold cosine_similarity
  rcases eq_or_lt_of_le (Real.sqrt_nonneg (dotR v v * dotR w w)) with h0 | hpos
  · rw [← h0, div_zero]
    norm_num
  · rw [div_le_one hpos]
    rcases le_or_lt (dotR v w) 0 with hle | hgt
    · exact le_trans hle (le_of_lt hpos)
    · have hsq : (dotR v w) ^ 2 ≤ Real.sqrt (dotR v v * dotR w w) ^ 2 := by
        rw [Real.sq_sqrt (by nlinarith [dotR_sq_le v w, sq_nonneg (dotR v w)])]
        exact dotR_sq_le v w
      nlinarith

theorem cosine_similarity_self (v : List ℝ) (h : 0 < dotR v v) :
    cosine_similarity v v = 1 := by
  unfold cosine_similarity
  rw [Real.sqrt_mul_self (le_of_lt h)]
  exact div_self (ne_of_gt h)

/-! ### Similarity engine (`3223004469/main.py` and `main.py`)

`calculate_similarity` of `3223004469/main.py` is written generically over
the vectorizer call (`calculate_similarityW`) so that the error-propagation
behavior of its `try`/`except ValueError` block can be stated for an
arbitrary vectorization failure; `calculate_similarity` instantiates it with
the concrete `fit_transform`.  The cached segmenter is modelled separately
(see the LRU section); by the cache-transparency theorem proved there, using
the pure `preprocess_text` here is observationally equal. -/

/-- The test in the `except ValueError` handler: the code catches a `ValueError`
and retries with a character ratio exactly when the message contains
"empty vocabulary"; every other error is re-raised (or never caught). -/
def isEmptyVocabError (e : PyError) : Bool :=
  e.isValueError && containsSubstr e.msg "empty vocabulary"

/-- Model of `calculate_similarity` of `3223004469/main.py`, generic in the
vectorizer: empty-text checks on the joined strings, the no-valid-words
raw-equality carve-out, the single-token rule with `SequenceMatcher`
fallback, then the vector path guarded by the `try`/`except ValueError`
block. -/
noncomputable def calculate_similarityW (seg : String → List String)
    (fit : List String → Except PyError (List (List ℝ)))
    (original_text copied_text : Option String) : Except PyError ℝ :=
  let op := preprocess_text seg original_text
  let cp := preprocess_text seg copied_text
  if op = "" ∧ cp = "" then .ok 1
  else if op = "" ∨ cp = "" then .ok 0
  else
    let ow := pySplit op
    let cw := pySplit cp
    if ow = [] ∧ cw = [] then .ok (if original_text = copied_text then 1 else 0)
    else if ow = [] ∨ cw = [] then .ok 0
    else if ow.length = 1 ∧ cw.length = 1 then
      if ow.getD 0 "" = cw.getD 0 "" then .ok 1
      else .ok ((sequenceMatcherRatio (original_text.getD "") (copied_text.getD "") : ℚ) : ℝ)
    else
      match fit [op, cp] with
      | .ok m => .ok (cosine_similarity (m.getD 0 []) (m.getD 1 []))
      | .error e =>
        if isEmptyVocabError e then
          .ok ((sequenceMatcherRatio (original_text.getD "") (copied_text.getD "") : ℚ) : ℝ)
        else .error e

/-- Model of `calculate_similarity` of `3223004469/main.py` with the real
vectorizer. -/
noncomputable def calculate_similarity (seg : String → List String)
    (original_text copied_text : Option String) : Except PyError ℝ :=
  calculate_similarityW seg fit_transform original_text copied_text

/-- Model of `calculate_similarity` of `main.py`: only the empty-text checks, then
the unguarded vector path (no single-token rule, no `try`/`except`). -/
noncomputable def calculate_similarityS (seg : String → List String)
    (original_text copied_text : Option String) : Except PyError ℝ :=
  let op := preprocess_text seg original_text
  let cp := preprocess_text seg copied_text
  if op = "" ∧ cp = "" then .ok 1
  else if op = "" ∨ cp = "" then .ok 0
  else
    match fit_transform [op, cp] with
    | .ok m => .ok (cosine_similarity (m.getD 0 []) (m.getD 1 []))
    | .error e => .error e

/-- Model of `calculate_similarity_batch` of `3223004469/main.py`: empty batch short
circuit, one shared fit over all `2 * len(pairs)` preprocessed documents,
then cosine of consecutive row pairs (`range(0, len, 2)` with the
`i + 1 < len` guard). -/
noncomputable def calculate_similarity_batch (seg : String → List String)
    (text_pairs : List (Option String × Option String)) : Except PyError (List ℝ) :=
  if text_pairs = [] then .ok []
  else
    let all_texts := (text_pairs.map
      (fun p => [preprocess_text seg p.1, preprocess_text seg p.2])).flatten
    match fit_transform all_texts with
    | .error e => .error e
    | .ok m => .ok (((List.range all_texts.length).filter (fun i => i % 2 = 0)).filterMap
        (fun i => if i + 1 < all_texts.length then
          some (cosine_similarity (m.getD i []) (m.getD (i + 1) [])) else none))

/-! ### LRU cache (`functools.lru_cache(maxsize=1000)` on
`cached_preprocess_text`)

The cache state is an association list from argument to cached result,
most-recently-used first.  A hit moves the entry to the front; a miss
computes, inserts at the front and truncates to the capacity (evicting the
least-recently-used entry). -/

/-- One call through an `lru_cache`-wrapped function `f` with capacity
`cap`: result together with the updated cache state. -/
def lruCall (f : Option String → String) (cap : Nat)
    (c : List (Option String × String)) (x : Option String) :
    String × List (Option String × String) :=
  match c.find? (fun p => decide (p.1 = x)) with
  | some p => (p.2, (x, p.2) :: c.filter (fun q => decide (q.1 ≠ x)))
  | none => (f x, ((x, f x) :: c).take cap)

/-- The cache state after a sequence of calls (most recent call first),
starting from the empty cache created at process start. -/
def lruRun (f : Option String → String) (cap : Nat) :
    List (Option String) → List (Option String × String)
  | [] => []
  | x :: xs => (lruCall f cap (lruRun f cap xs) x).2

/-- Model of `cached_preprocess_text` of `3223004469/main.py`: the body of
`preprocess_text` behind an LRU cache of capacity 1000, acting on an explicit cache
state. -/
def cached_preprocess_text (seg : String → List String)
    (c : List (Option String × String)) (x : Option String) :
    String × List (Option String × String) :=
  lruCall (preprocess_text seg) 1000 c x

/-- Every entry of the cache stores exactly what `f` returns on its key. -/
def CacheFaithful (f : Option String → String)
    (c : List (Option String × String)) : Prop :=
  ∀ p ∈ c, p.2 = f p.1

theorem lruCall_faithful (f : Option String → String) (cap : Nat)
    (c : List (Option String × String)) (x : Option String)
    (hc : CacheFaithful f c) :
    (lruCall f cap c x).1 = f x ∧ CacheFaithful f (lruCall f cap c x).2 := by
  unfold lruCall
  cases hfind : c.find? (fun p => decide (p.1 = x)) with
  | none =>
    constructor
    · rfl
    · intro p hp
      have hp' := List.mem_of_mem_take hp
      rcases List.mem_cons.mp hp' with h | h
      · rw [h]
      · exact hc p h
  | some p =>
    have hmem : p ∈ c := List.mem_of_find?_eq_some hfind
    have hkey : p.1 = x := by
      have := List.find?_some hfind
      exact of_decide_eq_true this
    constructor
    · simp only
      rw [hc p hmem, hkey]
    · intro q hq
      rcases List.mem_cons.mp hq with h | h
      · rw [h]
        simp only
        rw [hc p hmem, hkey]
      · exact hc q (List.mem_of_mem_filter h)

theorem lruRun_faithful (f : Option String → String) (cap : Nat)
    (xs : List (Option String)) : CacheFaithful f (lruRun f cap xs) := by
  induction xs with
  | nil => intro p hp; cases hp
  | cons x xs ih =>
    exact (lruCall_faithful f cap (lruRun f cap xs) x ih).2

/-! ### Result formatter (`write_result`: `str(round(similarity, 2))`)

The Python call `round(x, 2)` on a nonnegative score is modelled as
round-half-to-even of `100 * x` (the float is treated as the exact real it
approximates), and `str` of the resulting float renders the integer part, a
dot, and the one or two fractional digits with a trailing zero dropped and a
leading zero kept (`0.75`, `0.7`, `0.07`, `1.0`, `0.0`). -/

/-- The character of a decimal digit. -/
def digitChar (d : Nat) : Char := Char.ofNat (48 + d % 10)

/-- Decimal digits of a natural number, most significant first; `fuel`
bounds the recursion and `n + 1` always suffices. -/
def natCharsAux : Nat → Nat → List Char
  | 0, _ => []
  | fuel + 1, n =>
    if n < 10 then [digitChar n]
    else natCharsAux fuel (n / 10) ++ [digitChar (n % 10)]

/-- Decimal rendering of a natural number. -/
def natStr (n : Nat) : String := String.mk (natCharsAux (n + 1) n)

/-- Python `str` of the float `k / 100` for nonnegative `k` (the only
values reaching `write_result`): plain decimal, no percent sign, no
locale separators. -/
def renderHundredths (k : ℤ) : String :=
  let n := k.natAbs
  let ip := n / 100
  let fr := n % 100
  if fr = 0 then natStr ip ++ ".0"
  else if fr % 10 = 0 then natStr ip ++ "." ++ natStr (fr / 10)
  else if fr < 10 then natStr ip ++ ".0" ++ natStr fr
  else natStr ip ++ "." ++ natStr fr

/-- Round-half-to-even to an integer, the tie-breaking of Python `round`. -/
noncomputable def roundHalfEven (x : ℝ) : ℤ :=
  if x - ⌊x⌋ < 1 / 2 then ⌊x⌋
  else if 1 / 2 < x - ⌊x⌋ then ⌊x⌋ + 1
  else if Even ⌊x⌋ then ⌊x⌋ else ⌊x⌋ + 1

/-- The string `write_result` writes for a given score:
`str(round(similarity, 2))`. -/
noncomputable def formatScore (x : ℝ) : String :=
  renderHundredths (roundHalfEven (100 * x))

/-! ### CLI entry points

`main` reads no state other than `sys.argv` and the file system; the file
system is modelled as a map `fs` from path to the `read_file` result
(`None` on a read failure, otherwise the stripped decoded content).  The
observable outcome is which messages were printed and what was written. -/

/-- Observable outcome of a `main` run: whether the usage message was
printed, whether the read-failure message was printed, and the
(path, content) written to the output file, if any. -/
structure MainResult where
  printedUsage : Bool
  printedReadFail : Bool
  written : Option (String × String)
deriving DecidableEq, Repr

/-- Model of `main` of `3223004469/main.py`: a wrong argument count or a failed
read returns immediately (nothing written); otherwise the score is
computed by `calculate_similarity` and its formatted value written. -/
noncomputable def mainA (seg : String → List String) (argv : List String)
    (fs : String → Option String) : Except PyError MainResult :=
  if argv.length ≠ 4 then .ok ⟨true, false, none⟩
  else
    let original_text := fs (argv.getD 1 "")
    let copied_text := fs (argv.getD 2 "")
    if original_text = none ∨ copied_text = none then .ok ⟨false, true, none⟩
    else
      match calculate_similarity seg original_text copied_text with
      | .ok s => .ok ⟨false, false, some (argv.getD 3 "", formatScore s)⟩
      | .error e => .error e

/-- Model of `main` of `main.py`: the argument-count check and the read-failure
check only print, they do not return, so execution always falls through to
the similarity computation and the write.  With fewer than four argv
entries the fall-through accesses `sys.argv[1..3]` and raises `IndexError`
(the usage message having been printed before the crash); with more it
proceeds and writes. -/
noncomputable def mainB (seg : String → List String) (argv : List String)
    (fs : String → Option String) : Except PyError MainResult :=
  if argv.length < 4 then .error ⟨false, "IndexError: list index out of range"⟩
  else
    let original_text := fs (argv.getD 1 "")
    let copied_text := fs (argv.getD 2 "")
    match calculate_similarityS seg original_text copied_text with
    | .ok s => .ok ⟨decide (argv.length ≠ 4),
        decide (original_text = none ∨ copied_text = none),
        some (argv.getD 3 "", formatScore s)⟩
    | .error e => .error e

/-! ### Stand-in segmenters for concrete instantiation

`jieba.lcut` is external to the repository; theorems are stated for an
arbitrary segmenter, and these two concrete segmenters instantiate them in
witnesses. -/

/-- Stand-in segmenter: the whole text is a single token (as jieba returns
for a single CJK character). -/
def segOne : String → List String := fun s => [s]

/-- Stand-in segmenter: whitespace tokenization. -/
def segWS : String → List String := fun s => pySplit s

/-! ### Supporting lemmas -/

theorem pySplit_empty : pySplit "" = [] := rfl

theorem ne_empty_of_pySplit_ne_nil {s : String} (h : pySplit s ≠ []) : s ≠ "" := by
  intro hs
  rw [hs, pySplit_empty] at h
  exact h rfl

theorem preprocess_text_none (seg : String → List String) :
    preprocess_text seg none = "" := rfl

theorem dotR_map_self {α : Type} (f : α → ℝ) : ∀ l : List α,
    dotR (l.map f) (l.map f) = (l.map (fun t => f t * f t)).sum
  | [] => rfl
  | x :: xs => by
    simp only [List.map_cons, dotR, List.sum_cons]
    rw [dotR_map_self f xs]

theorem getD_mem_or_default {α : Type} (l : List α) (i : Nat) (d : α) :
    l.getD i d ∈ l ∨ l.getD i d = d := by
  by_cases h : i < l.length
  · left
    rw [List.getD_eq_getElem l d h]
    exact List.getElem_mem h
  · right
    exact List.getD_eq_default l d (le_of_not_lt h)

/-- Every entry of every row of a successfully fitted tf-idf matrix is
nonnegative, including out-of-range rows read back as `[]`. -/
theorem fit_transform_row_nonneg (docs : List String) (m : List (List ℝ))
    (h : fit_transform docs = .ok m) (i : Nat) :
    ∀ x ∈ m.getD i [], 0 ≤ x := by
  intro x hx
  unfold fit_transform at h
  split at h
  · exact absurd h (by simp)
  · have hm : m = (docs.map sklearnTokenize).map
        (fun d => (sklearnVocab docs).map (tfidfWeight (docs.map sklearnTokenize) d)) := by
      injection h with h'
      exact h'.symm
    subst hm
    rcases getD_mem_or_default ((docs.map sklearnTokenize).map
        (fun d => (sklearnVocab docs).map (tfidfWeight (docs.map sklearnTokenize) d))) i []
      with hmem | hnil
    · rcases List.mem_map.mp hmem with ⟨d, _, hrow⟩
      rw [← hrow] at hx
      rcases List.mem_map.mp hx with ⟨t, _, hw⟩
      rw [← hw]
      exact tfidfWeight_nonneg _ d t (docFreq_le t _)
    · rw [hnil] at hx
      cases hx

/-- Reduction of `calculate_similarityW` to the vector path when neither
token list is empty and the single-token rule does not apply. -/
theorem calculate_similarityW_vector (seg : String → List String)
    (fit : List String → Except PyError (List (List ℝ))) (a b : String)
    (ho : pySplit (preprocess_text seg (some a)) ≠ [])
    (hc : pySplit (preprocess_text seg (some b)) ≠ [])
    (hlen : ¬((pySplit (preprocess_text seg (some a))).length = 1 ∧
      (pySplit (preprocess_text seg (some b))).length = 1)) :
    calculate_similarityW seg fit (some a) (some b) =
      match fit [preprocess_text seg (some a), preprocess_text seg (some b)] with
      | .ok m => .ok (cosine_similarity (m.getD 0 []) (m.getD 1 []))
      | .error e =>
        if isEmptyVocabError e then .ok ((sequenceMatcherRatio a b : ℚ) : ℝ)
        else .error e := by
  have hoe : preprocess_text seg (some a) ≠ "" := ne_empty_of_pySplit_ne_nil ho
  have hce : preprocess_text seg (some b) ≠ "" := ne_empty_of_pySplit_ne_nil hc
  unfold calculate_similarityW
  simp only [hoe, hce, ho, hc, hlen, Option.getD_some, false_and, and_false,
    false_or, or_false, ite_false, not_false_iff, if_false]

/-! ### Claim theorems -/

/-- C1: when both inputs segment to exactly one token each, score returns
1.0 if the single tokens are string-equal and otherwise the
`SequenceMatcher` ratio of the two raw input strings, a value in [0, 1];
either way it returns a value rather than raising. -/
theorem C1_single_token_rule (seg : String → List String) (a b ta tb : String)
    (ha : pySplit (preprocess_text seg (some a)) = [ta])
    (hb : pySplit (preprocess_text seg (some b)) = [tb]) :
    calculate_similarity seg (some a) (some b) =
      .ok (if ta = tb then 1 else ((sequenceMatcherRatio a b : ℚ) : ℝ)) ∧
    0 ≤ sequenceMatcherRatio a b ∧ sequenceMatcherRatio a b ≤ 1 := by
  refine ⟨?_, sequenceMatcherRatio_nonneg a b, sequenceMatcherRatio_le_one a b⟩
  have hoe : preprocess_text seg (some a) ≠ "" :=
    ne_empty_of_pySplit_ne_nil (by rw [ha]; exact List.cons_ne_nil ta [])
  have hce : preprocess_text seg (some b) ≠ "" :=
    ne_empty_of_pySplit_ne_nil (by rw [hb]; exact List.cons_ne_nil tb [])
  unfold calculate_similarity calculate_similarityW
  simp only [hoe, hce, ha, hb, Option.getD_some, List.getD_cons_zero,
    List.length_cons, List.length_nil, false_and, and_false, false_or, or_false,
    ite_false, not_false_iff, if_false, List.cons_ne_nil, and_self, ite_true,
    reduceCtorEq]
  by_cases h : ta = tb <;> simp [h]

/-- Witness for C1: with a segmenter that treats each text as one token,
score of two distinct single-character strings is their character ratio
(and that ratio lies in [0, 1]). -/
theorem C1_single_token_rule_witness :
    calculate_similarity segOne (some "好") (some "坏") =
      .ok (if ("好" : String) = "坏" then 1
        else ((sequenceMatcherRatio "好" "坏" : ℚ) : ℝ)) ∧
    0 ≤ sequenceMatcherRatio "好" "坏" ∧ sequenceMatcherRatio "好" "坏" ≤ 1 :=
  C1_single_token_rule segOne "好" "坏" "好" "坏" (by decide) (by decide)

/-- C3 counterexample: on the empty batch, `calculate_similarity_batch`
returns an empty result list rather than propagating a vectorization
error. -/
theorem C3_counterexample : calculate_similarity_batch segOne [] = .ok [] := by
  unfold calculate_similarity_batch
  simp

/-- C3 (amended): for every non-empty batch on which vectorization fails
(batch-wide empty vocabulary), the batch call propagates the fatal error
and performs no per-pair fallback; the empty batch instead returns an
empty list without invoking vectorization. -/
theorem C3_batch_failure_propagates (seg : String → List String)
    (pairs : List (Option String × Option String)) (hne : pairs ≠ [])
    (hv : sklearnVocab ((pairs.map
      (fun p => [preprocess_text seg p.1, preprocess_text seg p.2])).flatten) = []) :
    calculate_similarity_batch seg pairs = .error emptyVocabError := by
  have hfit : fit_transform ((pairs.map
      (fun p => [preprocess_text seg p.1, preprocess_text seg p.2])).flatten) =
      .error emptyVocabError := by
    unfold fit_transform
    rw [if_pos hv]
  unfold calculate_similarity_batch
  rw [if_neg hne]
  simp only [hfit]

/-- Witness for the amended C3 theorem at a concrete one-pair batch whose
two documents tokenize to nothing. -/
theorem C3_batch_failure_propagates_witness :
    calculate_similarity_batch segWS [(some "a", some "b")] = .error emptyVocabError :=
  C3_batch_failure_propagates segWS [(some "a", some "b")] (by decide) (by decide)

/-- C4: if both inputs preprocess to the empty joined string, score
returns 1.0; if both preprocess to non-empty strings that nevertheless
split to no tokens, score compares the raw input strings for exact
equality, returning 1.0 or 0.0. -/
theorem C4_empty_and_no_token_rules :
    (∀ (seg : String → List String) (a b : Option String),
      preprocess_text seg a = "" → preprocess_text seg b = "" →
      calculate_similarity seg a b = .ok 1) ∧
    (∀ (seg : String → List String) (a b : String),
      preprocess_text seg (some a) ≠ "" → preprocess_text seg (some b) ≠ "" →
      pySplit (preprocess_text seg (some a)) = [] →
      pySplit (preprocess_text seg (some b)) = [] →
      calculate_similarity seg (some a) (some b) =
        .ok (if a = b then 1 else 0)) := by
  constructor
  · intro seg a b ha hb
    unfold calculate_similarity calculate_similarityW
    simp only [ha, hb, and_self, ite_true, if_pos]
  · intro seg a b ha hb hsa hsb
    unfold calculate_similarity calculate_similarityW
    simp only [ha, hb, hsa, hsb, false_and, and_false, false_or, or_false,
      ite_false, not_false_iff, if_false, and_self, ite_true, Option.some.injEq]

/-- Witness for C4: blank inputs score 1.0; whitespace-only inputs that
segment to whitespace tokens hit the raw-equality carve-out. -/
theorem C4_empty_and_no_token_rules_witness :
    calculate_similarity segOne (some "") (some "") = .ok 1 ∧
    calculate_similarity segOne (some " ") (some " ") =
      .ok (if (" " : String) = " " then 1 else 0) :=
  ⟨C4_empty_and_no_token_rules.1 segOne (some "") (some "") (by decide) (by decide),
   C4_empty_and_no_token_rules.2 segOne " " " " (by decide) (by decide)
     (by decide) (by decide)⟩

/-- C6: the cached segmenter agrees with the uncached segmentation
function on every input, whatever the cache state reached by any prior
call sequence from the initial empty cache (hits, misses, and LRU
evictions at capacity 1000 included). -/
theorem C6_cache_transparency (seg : String → List String)
    (xs : List (Option String)) (x : Option String) :
    (cached_preprocess_text seg (lruRun (preprocess_text seg) 1000 xs) x).1 =
      preprocess_text seg x :=
  (lruCall_faithful (preprocess_text seg) 1000 _ x
    (lruRun_faithful (preprocess_text seg) 1000 xs)).1

/-- C2: on the vector path, a vectorization failure caused by an empty
vocabulary makes score fall back to the character-level sequence ratio of
the two raw input strings, while a vectorization failure with any other
cause is not caught and propagates to the caller. -/
theorem C2_vectorization_failure_policy :
    (∀ (seg : String → List String) (a b : String),
      pySplit (preprocess_text seg (some a)) ≠ [] →
      pySplit (preprocess_text seg (some b)) ≠ [] →
      ¬((pySplit (preprocess_text seg (some a))).length = 1 ∧
        (pySplit (preprocess_text seg (some b))).length = 1) →
      sklearnVocab [preprocess_text seg (some a), preprocess_text seg (some b)] = [] →
      calculate_similarity seg (some a) (some b) =
        .ok ((sequenceMatcherRatio a b : ℚ) : ℝ)) ∧
    (∀ (seg : String → List String)
      (fit : List String → Except PyError (List (List ℝ))) (a b : String) (e : PyError),
      pySplit (preprocess_text seg (some a)) ≠ [] →
      pySplit (preprocess_text seg (some b)) ≠ [] →
      ¬((pySplit (preprocess_text seg (some a))).length = 1 ∧
        (pySplit (preprocess_text seg (some b))).length = 1) →
      fit [preprocess_text seg (some a), preprocess_text seg (some b)] = .error e →
      isEmptyVocabError e = false →
      calculate_similarityW seg fit (some a) (some b) = .error e) := by
  constructor
  · intro seg a b ho hc hlen hv
    have hfit : fit_transform [preprocess_text seg (some a),
        preprocess_text seg (some b)] = .error emptyVocabError := by
      unfold fit_transform
      rw [if_pos hv]
    unfold calculate_similarity
    rw [calculate_similarityW_vector seg fit_transform a b ho hc hlen, hfit]
    have hev : isEmptyVocabError emptyVocabError = true := by decide
    simp [hev]
  · intro seg fit a b e ho hc hlen hfit hnv
    rw [calculate_similarityW_vector seg fit a b ho hc hlen, hfit]
    simp [hnv]

/-- Witness for C2: two two-token documents whose tokens are all single
characters produce an empty vocabulary and fall back to the character
ratio; an artificial non-vocabulary failure propagates unchanged. -/
theorem C2_vectorization_failure_policy_witness :
    calculate_similarity segWS (some "a b") (some "c d") =
      .ok ((sequenceMatcherRatio "a b" "c d" : ℚ) : ℝ) ∧
    calculate_similarityW segWS (fun _ => .error ⟨false, "boom"⟩)
      (some "a b") (some "c d") = .error ⟨false, "boom"⟩ :=
  ⟨C2_vectorization_failure_policy.1 segWS "a b" "c d" (by decide) (by decide)
     (by decide) (by decide),
   C2_vectorization_failure_policy.2 segWS (fun _ => .error ⟨false, "boom"⟩)
     "a b" "c d" ⟨false, "boom"⟩ (by decide) (by decide) (by decide) rfl (by decide)⟩

/-- C7: score(T, T) is exactly 1.0 (hence within any tolerance of 1.0),
computed via the vector path, whenever T segments to at least two tokens
and the fitted vocabulary is non-empty. -/
theorem C7_identity_vector_path (seg : String → List String) (T : String)
    (h2 : 2 ≤ (pySplit (preprocess_text seg (some T))).length)
    (hv : sklearnVocab [preprocess_text seg (some T),
      preprocess_text seg (some T)] ≠ []) :
    calculate_similarity seg (some T) (some T) = .ok 1 := by
  have ho : pySplit (preprocess_text seg (some T)) ≠ [] := by
    intro hnil
    rw [hnil] at h2
    simp at h2
  have hlen : ¬((pySplit (preprocess_text seg (some T))).length = 1 ∧
      (pySplit (preprocess_text seg (some T))).length = 1) := by
    intro hand
    have h1 := hand.1
    omega
  unfold calculate_similarity
  rw [calculate_similarityW_vector seg fit_transform T T ho ho hlen]
  have hfit : fit_transform [preprocess_text seg (some T),
      preprocess_text seg (some T)] = .ok
      [(sklearnVocab [preprocess_text seg (some T), preprocess_text seg (some T)]).map
        (tfidfWeight [sklearnTokenize (preprocess_text seg (some T)),
          sklearnTokenize (preprocess_text seg (some T))]
          (sklearnTokenize (preprocess_text seg (some T)))),
       (sklearnVocab [preprocess_text seg (some T), preprocess_text seg (some T)]).map
        (tfidfWeight [sklearnTokenize (preprocess_text seg (some T)),
          sklearnTokenize (preprocess_text seg (some T))]
          (sklearnTokenize (preprocess_text seg (some T))))] := by
    unfold fit_transform
    rw [if_neg hv]
    simp
  rw [hfit]
  simp only [List.getD_cons_zero, List.getD_cons_succ]
  have hpos : 0 < dotR
      ((sklearnVocab [preprocess_text seg (some T), preprocess_text seg (some T)]).map
        (tfidfWeight [sklearnTokenize (preprocess_text seg (some T)),
          sklearnTokenize (preprocess_text seg (some T))]
          (sklearnTokenize (preprocess_text seg (some T)))))
      ((sklearnVocab [preprocess_text seg (some T), preprocess_text seg (some T)]).map
        (tfidfWeight [sklearnTokenize (preprocess_text seg (some T)),
          sklearnTokenize (preprocess_text seg (some T))]
          (sklearnTokenize (preprocess_text seg (some T))))) := by
    rw [dotR_map_self]
    apply List.sum_pos
    · intro y hy
      rcases List.mem_map.mp hy with ⟨t, ht, hyt⟩
      have htd : t ∈ sklearnTokenize (preprocess_text seg (some T)) := by
        have hmem := List.mem_dedup.mp (by exact ht)
        simp only [List.map_cons, List.map_nil, List.flatten_cons, List.flatten_nil,
          List.append_nil, List.mem_append] at hmem
        rcases hmem with h | h <;> exact h
      have hw : 0 < tfidfWeight
          [sklearnTokenize (preprocess_text seg (some T)),
            sklearnTokenize (preprocess_text seg (some T))]
          (sklearnTokenize (preprocess_text seg (some T))) t := by
        unfold tfidfWeight
        have hdf : docFreq t [sklearnTokenize (preprocess_text seg (some T)),
            sklearnTokenize (preprocess_text seg (some T))] = 2 := by
          unfold docFreq
          simp [htd]
        rw [hdf]
        have hcount : 0 < (sklearnTokenize (preprocess_text seg (some T))).count t :=
          List.count_pos_iff.mpr htd
        have hcount' : (0 : ℝ) < ((sklearnTokenize (preprocess_text seg (some T))).count t : ℝ) := by
          exact_mod_cast hcount
        have hlog : Real.log ((1 + ([sklearnTokenize (preprocess_text seg (some T)),
            sklearnTokenize (preprocess_text seg (some T))]).length : ℝ) / (1 + (2 : ℕ))) = 0 := by
          norm_num
        rw [hlog]
        linarith
      rw [← hyt]
      exact mul_pos hw hw
    · intro hmapnil
      exact hv (List.map_eq_nil_iff.mp hmapnil)
  rw [cosine_similarity_self _ hpos]

/-- Witness for C7 on a concrete two-token text. -/
theorem C7_identity_vector_path_witness :
    calculate_similarity segWS (some "hello world") (some "hello world") = .ok 1 :=
  C7_identity_vector_path segWS "hello world" (by decide) (by decide)

/-- C8: every score returned by the single-pair engine along any branch,
and every element of a batch result, lies in the closed interval [0, 1]. -/
theorem C8_scores_in_unit_interval :
    (∀ (seg : String → List String) (a b : Option String) (r : ℝ),
      calculate_similarity seg a b = .ok r → 0 ≤ r ∧ r ≤ 1) ∧
    (∀ (seg : String → List String) (pairs : List (Option String × Option String))
      (rs : List ℝ),
      calculate_similarity_batch seg pairs = .ok rs → ∀ r ∈ rs, 0 ≤ r ∧ r ≤ 1) := by
  have hratio : ∀ a b : String, (0 : ℝ) ≤ ((sequenceMatcherRatio a b : ℚ) : ℝ) ∧
      ((sequenceMatcherRatio a b : ℚ) : ℝ) ≤ 1 := by
    intro a b
    constructor
    · exact_mod_cast sequenceMatcherRatio_nonneg a b
    · exact_mod_cast sequenceMatcherRatio_le_one a b
  constructor
  · intro seg a b r h
    unfold calculate_similarity calculate_similarityW at h
    by_cases h1 : preprocess_text seg a = "" ∧ preprocess_text seg b = ""
    · rw [if_pos h1] at h
      simp only [Except.ok.injEq] at h
      subst h
      norm_num
    rw [if_neg h1] at h
    by_cases h2 : preprocess_text seg a = "" ∨ preprocess_text seg b = ""
    · rw [if_pos h2] at h
      simp only [Except.ok.injEq] at h
      subst h
      norm_num
    rw [if_neg h2] at h
    by_cases h3 : pySplit (preprocess_text seg a) = [] ∧ pySplit (preprocess_text seg b) = []
    · rw [if_pos h3] at h
      simp only [Except.ok.injEq] at h
      subst h
      split <;> norm_num
    rw [if_neg h3] at h
    by_cases h4 : pySplit (preprocess_text seg a) = [] ∨ pySplit (preprocess_text seg b) = []
    · rw [if_pos h4] at h
      simp only [Except.ok.injEq] at h
      subst h
      norm_num
    rw [if_neg h4] at h
    by_cases h5 : (pySplit (preprocess_text seg a)).length = 1 ∧
        (pySplit (preprocess_text seg b)).length = 1
    · rw [if_pos h5] at h
      by_cases h6 : (pySplit (preprocess_text seg a)).getD 0 "" =
          (pySplit (preprocess_text seg b)).getD 0 ""
      · rw [if_pos h6] at h
        simp only [Except.ok.injEq] at h
        subst h
        norm_num
      · rw [if_neg h6] at h
        simp only [Except.ok.injEq] at h
        subst h
        exact hratio _ _
    rw [if_neg h5] at h
    cases hfit : fit_transform [preprocess_text seg a, preprocess_text seg b] with
    | ok m =>
      rw [hfit] at h
      simp only [Except.ok.injEq] at h
      subst h
      exact ⟨cosine_similarity_nonneg _ _
          (fit_transform_row_nonneg _ m hfit 0) (fit_transform_row_nonneg _ m hfit 1),
        cosine_similarity_le_one _ _⟩
    | error e =>
      rw [hfit] at h
      simp only [] at h
      split_ifs at h with hev
      simp only [Except.ok.injEq] at h
      subst h
      exact hratio _ _
  · intro seg pairs rs h
    unfold calculate_similarity_batch at h
    split_ifs at h with hp
    · simp only [Except.ok.injEq] at h
      subst h
      intro r hr
      cases hr
    · simp only [] at h
      cases hfit : fit_transform ((pairs.map
        (fun p => [preprocess_text seg p.1, preprocess_text seg p.2])).flatten) with
      | error e =>
        rw [hfit] at h
        exact Except.noConfusion h
      | ok m =>
        rw [hfit] at h
        simp only [Except.ok.injEq] at h
        subst h
        intro r hr
        rcases List.mem_filterMap.mp hr with ⟨i, _, hif⟩
        split_ifs at hif with hlt
        simp only [Option.some.injEq] at hif
        subst hif
        exact ⟨cosine_similarity_nonneg _ _
            (fit_transform_row_nonneg _ m hfit i) (fit_transform_row_nonneg _ m hfit (i + 1)),
          cosine_similarity_le_one _ _⟩

/-- Witness for C8: the both-empty branch at concrete blank inputs. -/
theorem C8_scores_in_unit_interval_witness : (0 : ℝ) ≤ 1 ∧ (1 : ℝ) ≤ 1 :=
  C8_scores_in_unit_interval.1 segOne (some "") (some "") 1 (by
    unfold calculate_similarity calculate_similarityW
    simp [preprocess_text])

/-! ### Formatter lemmas -/

theorem digitChar_isDigit (d : Nat) : (digitChar d).isDigit = true := by
  unfold digitChar
  have h : d % 10 = 0 ∨ d % 10 = 1 ∨ d % 10 = 2 ∨ d % 10 = 3 ∨ d % 10 = 4 ∨
      d % 10 = 5 ∨ d % 10 = 6 ∨ d % 10 = 7 ∨ d % 10 = 8 ∨ d % 10 = 9 := by omega
  rcases h with h | h | h | h | h | h | h | h | h | h <;> rw [h] <;> decide

theorem natCharsAux_digits : ∀ (fuel n : Nat), ∀ c ∈ natCharsAux fuel n, c.isDigit = true
  | 0, n => by
    intro c hc
    simp [natCharsAux] at hc
  | fuel + 1, n => by
    intro c hc
    unfold natCharsAux at hc
    split at hc
    · rw [List.mem_singleton] at hc
      rw [hc]
      exact digitChar_isDigit n
    · rcases List.mem_append.mp hc with h | h
      · exact natCharsAux_digits fuel (n / 10) c h
      · rw [List.mem_singleton] at h
        rw [h]
        exact digitChar_isDigit (n % 10)

theorem natStr_digits (n : Nat) : ∀ c ∈ (natStr n).toList, c.isDigit = true := by
  intro c hc
  exact natCharsAux_digits (n + 1) n c hc

theorem toList_append (a b : String) : (a ++ b).toList = a.toList ++ b.toList :=
  String.data_append a b

theorem renderHundredths_chars (k : ℤ) :
    ∀ c ∈ (renderHundredths k).toList, c.isDigit = true ∨ c = '.' := by
  intro c hc
  have hdot0 : ((".0" : String)).toList = ['.', '0'] := rfl
  have hdot : (("." : String)).toList = ['.'] := rfl
  unfold renderHundredths at hc
  simp only [] at hc
  split_ifs at hc
  · rw [toList_append, List.mem_append] at hc
    rcases hc with h | h
    · exact Or.inl (natStr_digits _ c h)
    · rw [hdot0] at h
      rcases h with _ | ⟨_, h⟩
      · exact Or.inr rfl
      · rcases h with _ | ⟨_, h⟩
        · exact Or.inl rfl
        · cases h
  · rw [toList_append, toList_append, List.mem_append] at hc
    rcases hc with h | h
    · rw [List.mem_append] at h
      rcases h with h | h
      · exact Or.inl (natStr_digits _ c h)
      · rw [hdot] at h
        rcases h with _ | ⟨_, h⟩
        · exact Or.inr rfl
        · cases h
    · exact Or.inl (natStr_digits _ c h)
  · rw [toList_append, toList_append, List.mem_append] at hc
    rcases hc with h | h
    · rw [List.mem_append] at h
      rcases h with h | h
      · exact Or.inl (natStr_digits _ c h)
      · rw [hdot0] at h
        rcases h with _ | ⟨_, h⟩
        · exact Or.inr rfl
        · rcases h with _ | ⟨_, h⟩
          · exact Or.inl rfl
          · cases h
    · exact Or.inl (natStr_digits _ c h)
  · rw [toList_append, toList_append, List.mem_append] at hc
    rcases hc with h | h
    · rw [List.mem_append] at h
      rcases h with h | h
      · exact Or.inl (natStr_digits _ c h)
      · rw [hdot] at h
        rcases h with _ | ⟨_, h⟩
        · exact Or.inr rfl
        · cases h
    · exact Or.inl (natStr_digits _ c h)

theorem roundHalfEven_close (x : ℝ) : |x - (roundHalfEven x : ℝ)| ≤ 1 / 2 := by
  unfold roundHalfEven
  have h0 : ((⌊x⌋ : ℤ) : ℝ) ≤ x := Int.floor_le x
  have h1 : x < ⌊x⌋ + 1 := Int.lt_floor_add_one x
  split_ifs with ha hb hc
  · rw [abs_le]
    constructor <;> linarith
  · rw [abs_le]
    push_cast
    constructor <;> linarith
  · rw [abs_le]
    constructor <;> linarith
  · rw [abs_le]
    push_cast
    constructor <;> linarith

theorem roundHalfEven_intCast (k : ℤ) : roundHalfEven (k : ℝ) = k := by
  unfold roundHalfEven
  rw [Int.floor_intCast]
  norm_num

theorem formatScore_one : formatScore 1 = "1.0" := by
  unfold formatScore
  have h : (100 : ℝ) * 1 = ((100 : ℤ) : ℝ) := by norm_num
  rw [h, roundHalfEven_intCast]
  decide

/-- C9: the formatter renders the score rounded to two decimal digits (its
value is within half a hundredth of the score, scaled by 100) as a plain
decimal string containing only digits and a decimal point (no percent sign
or locale separators); in particular it renders 0.7543 as "0.75". -/
theorem C9_formatter_rounds_two_decimals :
    (∀ x : ℝ, ∃ k : ℤ, formatScore x = renderHundredths k ∧
      |100 * x - (k : ℝ)| ≤ 1 / 2) ∧
    (∀ (k : ℤ) (c : Char), c ∈ (renderHundredths k).toList →
      c.isDigit = true ∨ c = '.') ∧
    formatScore ((7543 : ℝ) / 10000) = "0.75" := by
  refine ⟨?_, ?_, ?_⟩
  · intro x
    exact ⟨roundHalfEven (100 * x), rfl, roundHalfEven_close (100 * x)⟩
  · intro k c hc
    exact renderHundredths_chars k c hc
  · unfold formatScore
    have h100 : (100 : ℝ) * ((7543 : ℝ) / 10000) = 7543 / 100 := by norm_num
    rw [h100]
    have hfloor : ⌊(7543 : ℝ) / 100⌋ = 75 := by
      rw [Int.floor_eq_iff]
      constructor <;> norm_num
    have hround : roundHalfEven ((7543 : ℝ) / 100) = 75 := by
      unfold roundHalfEven
      rw [hfloor]
      norm_num
    rw [hround]
    decide

/-- Witness for C9: the character-shape part of the theorem applied at the
concrete rendering of 75 hundredths, discharging the membership
hypothesis, together with the concrete 0.7543 instance. -/
theorem C9_formatter_rounds_two_decimals_witness :
    (('.').isDigit = true ∨ ('.' : Char) = '.') ∧
    formatScore ((7543 : ℝ) / 10000) = "0.75" :=
  ⟨C9_formatter_rounds_two_decimals.2.1 75 '.' (by decide),
   C9_formatter_rounds_two_decimals.2.2⟩

/-- C5 (code bug): with five argv entries, `main` of `3223004469/main.py`
prints the usage message and exits without writing, but `main` of
`main.py` prints the usage message and then, lacking a `return`, proceeds
to read the files, compute the score, and write the output file. -/
theorem C5_usage_message_behavior :
    mainA segOne ["main.py", "a.txt", "b.txt", "out.txt", "extra"] (fun _ => some "") =
      .ok ⟨true, false, none⟩ ∧
    mainB segOne ["main.py", "a.txt", "b.txt", "out.txt", "extra"] (fun _ => some "") =
      .ok ⟨true, false, some ("out.txt", "1.0")⟩ := by
  constructor
  · unfold mainA
    norm_num
  · have hs : calculate_similarityS segOne (some "") (some "") = Except.ok 1 := by
      unfold calculate_similarityS
      simp [preprocess_text]
    unfold mainB
    norm_num [List.getD, hs, formatScore_one]
    exact Option.some_ne_none ""

/-- C10: a `None` text argument is treated as empty text by preprocessing
in both entry points: score(None, None) is 1.0, score(None, T) is 0.0 for
any T segmenting to at least one token, and `main` of `main.py` continues
after failed reads, computing and writing the score 1.0. -/
theorem C10_none_treated_as_empty :
    (∀ seg : String → List String,
      calculate_similarity seg none none = .ok 1 ∧
      calculate_similarityS seg none none = .ok 1) ∧
    (∀ (seg : String → List String) (T : String),
      pySplit (preprocess_text seg (some T)) ≠ [] →
      calculate_similarity seg none (some T) = .ok 0 ∧
      calculate_similarityS seg none (some T) = .ok 0) ∧
    (∀ (seg : String → List String) (argv : List String) (fs : String → Option String),
      argv.length = 4 → fs (argv.getD 1 "") = none → fs (argv.getD 2 "") = none →
      mainB seg argv fs = .ok ⟨false, true, some (argv.getD 3 "", "1.0")⟩) := by
  have hnn : ∀ seg : String → List String,
      calculate_similarity seg none none = .ok 1 ∧
      calculate_similarityS seg none none = .ok 1 := by
    intro seg
    constructor
    · unfold calculate_similarity calculate_similarityW
      simp [preprocess_text]
    · unfold calculate_similarityS
      simp [preprocess_text]
  refine ⟨hnn, ?_, ?_⟩
  · intro seg T hT
    have hcp : preprocess_text seg (some T) ≠ "" := ne_empty_of_pySplit_ne_nil hT
    constructor
    · unfold calculate_similarity calculate_similarityW
      simp [preprocess_text_none, hcp]
    · unfold calculate_similarityS
      simp [preprocess_text_none, hcp]
  · intro seg argv fs h4 hf1 hf2
    unfold mainB
    rw [if_neg (by omega)]
    simp only [hf1, hf2, (hnn seg).2, h4]
    norm_num [formatScore_one]

/-- Witness for C10 at concrete inputs: the identity segmenter, the text
"x", and a four-argument invocation whose reads both fail. -/
theorem C10_none_treated_as_empty_witness :
    (calculate_similarity segOne none none = .ok 1 ∧
      calculate_similarityS segOne none none = .ok 1) ∧
    (calculate_similarity segOne none (some "x") = .ok 0 ∧
      calculate_similarityS segOne none (some "x") = .ok 0) ∧
    mainB segOne ["main.py", "a.txt", "b.txt", "out.txt"] (fun _ => none) =
      .ok ⟨false, true, some ("out.txt", "1.0")⟩ := by
  refine ⟨C10_none_treated_as_empty.1 segOne,
    C10_none_treated_as_empty.2.1 segOne "x" (by decide), ?_⟩
  have hg : (["main.py", "a.txt", "b.txt", "out.txt"] : List String).getD 3 "" =
      "out.txt" := rfl
  have h := C10_none_treated_as_empty.2.2 segOne
    ["main.py", "a.txt", "b.txt", "out.txt"] (fun _ => none) rfl rfl rfl
  rw [hg] at h
  exact h
